import Mathlib

/-!
Verification of the pancat core algorithms against their specification.

The development shallowly embeds the two algorithmic cores of the repository:

* the path co-traversal edit-distance engine of `pancat/edit_distance.py`
  (`path_level_edition`, `edit_single_path_path_level`, `perform_edition`);
* the bubble partitioning algorithm of `pancat/find_bubbles.py`
  (`bubble_caller`, `linearize_bubbles`).

Python integers are modelled by `Int` (the loop arithmetic in the source mixes
subtractions, so `Nat` truncation would be unfaithful there); node identifiers,
which the source sorts with `key=int`, are modelled by `Nat`; orientations by
`Bool`.  Python exceptions are modelled by `Except PanError`.  Python `while`
loops are modelled by structurally recursive functions with an explicit fuel
argument; each wrapper passes fuel that provably exceeds the number of
iterations the corresponding `while` loop can perform, so the fuel never runs
out (for the bubble fixed-point loop this sufficiency is itself proved, see
`c7_fixed_point`).
-/

/-- The error kinds of the pipeline.  The Python source raises bare
`ValueError`/`TypeError`; the spec names them AlignmentMismatch,
InconsistentSegmentation, SelectionError, DegenerateBubble.  Only the kinds the
code can actually signal are modelled:
* `inconsistentSegmentation`: the `case (False, False)` branch of the
  co-traversal loops (`raise ValueError()`);
* `selectionError`: `perform_edition`'s `raise ValueError()` when an explicit
  path selection is not contained in the shared-path set;
* `typeErrorBoolNotIterable`: the `TypeError` Python raises when
  `perform_edition` evaluates `set(selection)` with `selection` a `bool`
  (line 63 of `edit_distance.py`);
* `degenerateBubble`: the `raise ValueError(...)` of `linearize_bubbles` on a
  zero-sized bubble. -/
inductive PanError where
  | inconsistentSegmentation
  | selectionError
  | typeErrorBoolNotIterable
  | degenerateBubble
deriving DecidableEq, Repr

deriving instance DecidableEq for Except

/-- Insert an `Int` into a sorted list (auxiliary for `sortInt`). -/
def insSortedInt (x : Int) : List Int → List Int
  | [] => [x]
  | y :: ys => if x ≤ y then x :: y :: ys else y :: insSortedInt x ys

/-- Ascending insertion sort on `Int` lists: models Python's
`sorted(list(...))` applied to the merge/split sets before they are returned. -/
def sortInt (l : List Int) : List Int := l.foldr insSortedInt []

/-- Model of Python's `set.add`: `setAdd s x` models Python's `set.add`: the accumulators `merges`/`splits`
in the source are sets, so an element already present is not added again. -/
def setAdd (l : List Int) (x : Int) : List Int :=
  if l.contains x then l else x :: l

/-- The co-traversal `while` loop shared verbatim by `path_level_edition`
(lines 98-136 of `edit_distance.py`) and `edit_single_path_path_level`
(lines 450-488).  The two segmentations are the lists of segment lengths the
loop reads through `graph.segments[node]['length']` as it walks the two paths;
the loop never looks at anything else of the graphs.  State: the still
unconsumed suffixes of both segmentations (the cursors `i`/`j` of the source
advance exactly when a head is consumed here), the absolute offsets `pos_A`,
`pos_B`, the progress marker `global_pos`, and the `merges`/`splits` sets.
`global_pos` is updated by the source expression
`min(global_pos + (length_A - (global_pos - pos_A)),
     global_pos + (length_B - (global_pos - pos_B)))`
and the `match` on
`(global_pos - pos_A == length_A, global_pos - pos_B == length_B)` is the
nested `if` below, in the source's case order.  On exit (either cursor past
its end) the source returns `{'merges': sorted(list(merges)), 'splits':
sorted(list(splits))}`, modelled as the pair `(sorted merges, sorted splits)`.
The fuel only decreases once per loop iteration and every iteration consumes
at least one list element, so fuel `|A| + |B|` (what the wrapper passes) never
runs out before the loop guard fails. -/
def pathEditLoop : Nat → List Int → List Int → Int → Int → Int → List Int → List Int →
    Except PanError (List Int × List Int)
  | 0, _, _, _, _, _, merges, splits => .ok (sortInt merges, sortInt splits)
  | _+1, [], _, _, _, _, merges, splits => .ok (sortInt merges, sortInt splits)
  | _+1, _ :: _, [], _, _, _, merges, splits => .ok (sortInt merges, sortInt splits)
  | fuel+1, lenA :: restA, lenB :: restB, pos_A, pos_B, global_pos, merges, splits =>
    let g2 := min (global_pos + (lenA - (global_pos - pos_A)))
                  (global_pos + (lenB - (global_pos - pos_B)))
    if g2 - pos_A = lenA then
      if g2 - pos_B = lenB then
        pathEditLoop fuel restA restB (pos_A + lenA) (pos_B + lenB) g2 merges splits
      else
        pathEditLoop fuel restA (lenB :: restB) (pos_A + lenA) pos_B g2 merges (setAdd splits g2)
    else
      if g2 - pos_B = lenB then
        pathEditLoop fuel (lenA :: restA) restB pos_A (pos_B + lenB) g2 (setAdd merges g2) splits
      else
        .error .inconsistentSegmentation

/-- Function `edit_single_path_path_level` of `edit_distance.py`, restricted to the data
it actually uses: the two segmentations (segment-length lists) of the one path
it is given.  Returns `(merges, splits)`, both sorted ascending, or the
`ValueError` of the `(False, False)` branch. -/
def edit_single_path_path_level (A B : List Int) : Except PanError (List Int × List Int) :=
  pathEditLoop (A.length + B.length) A B 0 0 0 [] []

-- Sanity checks of the model on the spec's concrete scenarios.
example : edit_single_path_path_level [4, 6] [4, 3, 3] = .ok ([7], []) := by decide
example : edit_single_path_path_level [5, 5] [3, 7] = .ok ([3], [5]) := by decide

/-- The co-traversal loop never reaches its `(False, False)` branch: since the
updated `global_pos` is the minimum of the two candidate boundaries, at least
one of the two equalities holds, so every run ends in `Except.ok`. -/
lemma pathEditLoop_ok (fuel : Nat) :
    ∀ (A B : List Int) (pA pB g : Int) (m s : List Int),
      ∃ r, pathEditLoop fuel A B pA pB g m s = Except.ok r := by
  induction fuel with
  | zero => intro A B pA pB g m s; exact ⟨_, rfl⟩
  | succ f ih =>
    intro A B pA pB g m s
    cases A with
    | nil => exact ⟨_, rfl⟩
    | cons lenA restA =>
      cases B with
      | nil => exact ⟨_, rfl⟩
      | cons lenB restB =>
        simp only [pathEditLoop]
        split_ifs with h1 h2 h2 <;> first
          | exact ih _ _ _ _ _ _ _
          | (exfalso; omega)

/-- Swapping the two segmentations mirrors the whole traversal, exchanging the
roles of the two accumulators. -/
lemma pathEditLoop_swap (fuel : Nat) :
    ∀ (A B : List Int) (pA pB g : Int) (m s : List Int),
      pathEditLoop fuel B A pB pA g s m
        = Except.map (fun p => (p.2, p.1)) (pathEditLoop fuel A B pA pB g m s) := by
  induction fuel with
  | zero => intro A B pA pB g m s; rfl
  | succ f ih =>
    intro A B pA pB g m s
    cases A with
    | nil => cases B <;> rfl
    | cons lenA restA =>
      cases B with
      | nil => rfl
      | cons lenB restB =>
        simp only [pathEditLoop]
        rw [min_comm (g + (lenB - (g - pB))) (g + (lenA - (g - pA)))]
        split_ifs with h1 h2 h2 <;> first
          | exact ih _ _ _ _ _ _ _
          | rfl

/-- Co-traversing a segmentation against itself always takes the
both-boundaries branch, so the accumulators are returned untouched. -/
lemma pathEditLoop_self :
    ∀ (S : List Int) (fuel : Nat) (p g : Int) (m s : List Int), S.length ≤ fuel →
      pathEditLoop fuel S S p p g m s = Except.ok (sortInt m, sortInt s) := by
  intro S
  induction S with
  | nil => intro fuel p g m s _; cases fuel <;> rfl
  | cons a S' ih =>
    intro fuel p g m s h
    cases fuel with
    | zero => simp at h
    | succ f =>
      simp only [pathEditLoop]
      split_ifs with hc1 <;> try (exfalso; omega)
      exact ih f (p + a) _ m s (by simpa using h)

/-- C1: every iteration of the co-traversal loop sets `global_pos` to the
minimum of the two segments' next boundaries (`pos_A + length_A` and
`pos_B + length_B`) and classifies it exactly as the spec states: when both
boundaries are reached, no edit is recorded and both cursors advance; when
only `end_A` is reached, a split is recorded at `global_pos`, `pos_A` advances
to `end_A` and only the A-side cursor advances (only `restA` is consumed);
when only `end_B` is reached, a merge is recorded at `global_pos`, `pos_B`
advances to `end_B` and only the B-side cursor advances.  The equation holds
for every loop state, in particular for all length-consistent inputs. -/
theorem c1_co_traversal_step (fuel : Nat) (lenA lenB : Int) (restA restB : List Int)
    (pos_A pos_B global_pos : Int) (merges splits : List Int) :
    pathEditLoop (fuel+1) (lenA :: restA) (lenB :: restB) pos_A pos_B global_pos merges splits =
      if min (pos_A + lenA) (pos_B + lenB) = pos_A + lenA ∧
          min (pos_A + lenA) (pos_B + lenB) = pos_B + lenB then
        pathEditLoop fuel restA restB (pos_A + lenA) (pos_B + lenB)
          (min (pos_A + lenA) (pos_B + lenB)) merges splits
      else if min (pos_A + lenA) (pos_B + lenB) = pos_A + lenA then
        pathEditLoop fuel restA (lenB :: restB) (pos_A + lenA) pos_B
          (min (pos_A + lenA) (pos_B + lenB)) merges
          (setAdd splits (min (pos_A + lenA) (pos_B + lenB)))
      else
        pathEditLoop fuel (lenA :: restA) restB pos_A (pos_B + lenB)
          (min (pos_A + lenA) (pos_B + lenB))
          (setAdd merges (min (pos_A + lenA) (pos_B + lenB))) splits := by
  have eA : global_pos + (lenA - (global_pos - pos_A)) = pos_A + lenA := by ring
  have eB : global_pos + (lenB - (global_pos - pos_B)) = pos_B + lenB := by ring
  simp only [pathEditLoop, eA, eB]
  split_ifs <;> first
    | rfl
    | (exfalso; omega)

/-- C2 counterexample: the two segmentations `[3]` and `[5]` have different
total lengths, yet path-level edition raises no error at all — it returns the
partial result `(merges, splits) = ([], [3])` for that path.  The source
contains no total-length check, so no AlignmentMismatch can be signalled. -/
theorem c2_mismatch_counterexample :
    List.sum [(3 : Int)] ≠ List.sum [(5 : Int)] ∧
      edit_single_path_path_level [3] [5] = Except.ok ([], [3]) := by decide

/-- C2 amended: for segmentations with different total lengths, path-level
edition does not fail; the loop simply stops once either segmentation is
exhausted and the splits/merges accumulated up to that point are returned as
an ordinary (truncated) result. -/
theorem c2_mismatch_no_error (A B : List Int) (h : A.sum ≠ B.sum) :
    ∃ r, edit_single_path_path_level A B = Except.ok r :=
  pathEditLoop_ok (A.length + B.length) A B 0 0 0 [] []

theorem c2_mismatch_witness :
    List.sum [(3 : Int)] ≠ List.sum [(5 : Int)] ∧
      ∃ r, edit_single_path_path_level [3] [5] = Except.ok r :=
  ⟨by decide, c2_mismatch_no_error [3] [5] (by decide)⟩

/-- C3: swapping the two graphs swaps the roles of splits and merges exactly.
The per-path result is the pair `(merges, splits)`, so
`edit_single_path_path_level B A` is the component-swapped
`edit_single_path_path_level A B`: splits of A-vs-B are the merges of B-vs-A
and vice versa.  (The proof does not even need the length-consistency
hypothesis; it is kept because the claim quantifies over length-consistent
segmentations.) -/
theorem c3_symmetry (A B : List Int) (h : A.sum = B.sum) :
    edit_single_path_path_level B A
      = Except.map (fun p => (p.2, p.1)) (edit_single_path_path_level A B) := by
  unfold edit_single_path_path_level
  rw [Nat.add_comm B.length A.length]
  exact pathEditLoop_swap (A.length + B.length) A B 0 0 0 [] []

theorem c3_symmetry_witness :
    List.sum [(4 : Int), 6] = List.sum [(4 : Int), 3, 3] ∧
      edit_single_path_path_level [4, 3, 3] [4, 6]
        = Except.map (fun p => (p.2, p.1)) (edit_single_path_path_level [4, 6] [4, 3, 3]) :=
  ⟨by decide, c3_symmetry [4, 6] [4, 3, 3] (by decide)⟩

/-- C4: reconciling any segmentation against an identical copy of itself
yields empty splits and empty merges. -/
theorem c4_identity (S : List Int) :
    edit_single_path_path_level S S = Except.ok ([], []) :=
  pathEditLoop_self S (S.length + S.length) 0 0 [] [] (by omega)

/-- C5 counterexample: on A = [5,5], B = [3,7] the engine does NOT return
splits=[3], merges=[5] as the claim (spec Scenario 2) states. -/
theorem c5_scenario2_counterexample :
    edit_single_path_path_level [5, 5] [3, 7] ≠ Except.ok ([5], [3]) := by decide

/-- C5 amended: on A = [5,5] and B = [3,7] the engine returns merges=[3] and
splits=[5] — the opposite of the claim.  (At `global_pos = 3` only B's
boundary is reached, which by the loop's own classification records a merge;
at `global_pos = 5` only A's boundary is reached, recording a split.  The
spec's own §4.1 branch rules agree with the code here; only Scenario 2's
expected output is inverted.) -/
theorem c5_scenario2_amended :
    edit_single_path_path_level [5, 5] [3, 7] = Except.ok ([3], [5]) := by decide

/-- C9: for every input, even without the length-consistency precondition,
the co-traversal never raises: since `global_pos` is assigned the minimum of
the two candidate segment ends, at least one boundary equality holds on every
iteration, so the `(False, False)` branch (the InconsistentSegmentation
`ValueError`) is unreachable and the result is always `Except.ok`. -/
theorem c9_no_inconsistent_error (A B : List Int) (e : PanError) :
    edit_single_path_path_level A B ≠ Except.error e := by
  obtain ⟨r, hr⟩ := pathEditLoop_ok (A.length + B.length) A B 0 0 0 [] []
  unfold edit_single_path_path_level
  rw [hr]
  exact fun hcontra => Except.noConfusion hcontra

/-! ## Bubble partitioning (`pancat/find_bubbles.py`) -/

/-- Insert a `Nat` into a sorted list (auxiliary for `sortNat`). -/
def insSortedNat (x : Nat) : List Nat → List Nat
  | [] => [x]
  | y :: ys => if x ≤ y then x :: y :: ys else y :: insSortedNat x ys

/-- Ascending insertion sort on `Nat` lists: models Python's
`sorted(..., key=int)` over (distinct) node identifiers. -/
def sortNat (l : List Nat) : List Nat := l.foldr insSortedNat []

/-- Function `grouper(iterable, 2, 1)` of `find_bubbles.py`, as it is used there: the
list of overlapping consecutive pairs `[(x0,x1), (x1,x2), ...]`
(`[iterable[i:i+2] for i in range(0, len(iterable)-1)]`). -/
def grouper : List Nat → List (Nat × Nat)
  | [] => []
  | [_] => []
  | a :: b :: rest => (a, b) :: grouper (b :: rest)

/-- Model of `sorted(common_members(...))` + `sorted(..., key=int)` of `bubble_caller`:
the set of node identifiers visited by every path, as a sorted deduplicated
list.  Node names (numeric strings in the source, sorted with `key=int`) are
modelled as `Nat`.  A graph with no paths at all would make the Python
`elements[0]` raise `IndexError`; that case is modelled as the empty list and
is outside every claim. -/
def bubbles_endpoints_init (allSets : List (List Nat)) : List Nat :=
  match allSets with
  | [] => []
  | first :: rest =>
      sortNat ((first.filter (fun x => rest.all (fun s => s.contains x))).dedup)

/-- One full iteration of `bubble_caller`'s `while` loop (lines 56-78 of
`find_bubbles.py`), i.e. the `for path_name in gfa_graph.paths.keys()` loop.
For each path (its node-name list `ns`) in order: the endpoint indexes are
computed with `list.index` (first occurrence) against the *current* endpoint
list, grouped into consecutive pairs, and the exclusive slices
`all_sets[path][start:end]` are appended to the bubble chains accumulated so
far in this iteration (`bubbles[i][path_name]`, modelled as the flat
accumulator `chains`, which is all the `embed_nodes` computation reads);
then `embed_nodes` is the set of nodes strictly inside any chain
(`chain_content[1:-1]`) and the endpoint list is filtered in place — all of
this inside the per-path loop, exactly as in the source. -/
def bubble_iteration_paths : List (List Nat) → List (List Nat) → List Nat →
    List (List Nat) × List Nat
  | [], chains, endpoints => (chains, endpoints)
  | ns :: rest, chains, endpoints =>
    let idxs := endpoints.map (fun e => ns.indexOf e)
    let chains2 := chains ++ (grouper idxs).map (fun se => (ns.drop se.1).take (se.2 - se.1))
    let embed := (chains2.map (fun c => (c.drop 1).dropLast)).flatten
    bubble_iteration_paths rest chains2 (endpoints.filter (fun e => !(embed.contains e)))

/-- The `while (len(bubbles_endpoints) != convergence)` loop of
`bubble_caller`, with an explicit fuel and an iteration counter (the second
component instruments how many times the `while` body ran; the source keeps
no such counter, it is a ghost used to state the termination bound).  The
caller passes fuel `initial length + 1`, which is proved sufficient:
`c7_fixed_point` shows the returned endpoint list is a genuine fixed point of
`bubble_iteration_paths`, i.e. the loop exited through its convergence test
and not by exhausting fuel. -/
def bubble_caller_loop (allSets : List (List Nat)) : Nat → List Nat → Nat → List Nat × Nat
  | 0, endpoints, _ => (endpoints, 0)
  | fuel+1, endpoints, convergence =>
    if endpoints.length = convergence then (endpoints, 0)
    else
      let r := bubble_caller_loop allSets fuel
        (bubble_iteration_paths allSets [] endpoints).2 endpoints.length
      (r.1, r.2 + 1)

/-- The converged `bubbles_endpoints` list of `bubble_caller`: initial common
anchors, then the fixed-point filtering loop (convergence counter starts at
0, as in the source). -/
def converged_endpoints (paths : List (String × List (Nat × Bool))) : List Nat :=
  let allSets := paths.map (fun p => p.2.map Prod.fst)
  let eps0 := bubbles_endpoints_init allSets
  (bubble_caller_loop allSets (eps0.length + 1) eps0 0).1

/-- Model of `[all_sets[path].index(endpoint) for endpoint in bubbles_endpoints]` for
one path: the first-occurrence index of each endpoint in the path's node-name
list. -/
def anchor_indexes (endpoints : List Nat) (pd : List (Nat × Bool)) : List Nat :=
  endpoints.map (fun e => (pd.map Prod.fst).indexOf e)

/-- The final extraction of `bubble_caller` (lines 83-96) restricted to one
path: for each consecutive endpoint pair `(start, end)` the anchor-inclusive
oriented slice `all_maps[path][start:end+1]`. -/
def oriented_chains (endpoints : List Nat) (pd : List (Nat × Bool)) :
    List (List (Nat × Bool)) :=
  (grouper (anchor_indexes endpoints pd)).map
    (fun se => (pd.drop se.1).take (se.2 + 1 - se.1))

/-- Function `bubble_caller` of `find_bubbles.py`.  The source returns the list
`oriented_bubbles` indexed bubble-first (`oriented_bubbles[i][path_name]`);
this model returns the transposed, path-major view — for every path (in path
order) its ordered list of per-bubble chains, `oriented_bubbles[i][p] =
(bubble_caller paths).lookup p !! i` — which carries exactly the same chains.
A graph is its list of named oriented paths (`gfa_graph.paths`); segment
sequences are never consulted by `bubble_caller`. -/
def bubble_caller (paths : List (String × List (Nat × Bool))) :
    List (String × List (List (Nat × Bool))) :=
  paths.map (fun p => (p.1, oriented_chains (converged_endpoints paths) p.2))

/-- Function `linearize_bubbles` of `find_bubbles.py` up to its degenerate-bubble
guard (lines 149-153): it calls `bubble_caller` and raises
`ValueError("... A zero-sized bubble was detected ...")` if any path's chain
in any bubble is empty (`any([not len(x) for bubble in bubbles for x in
bubble.values()])`).  The construction of the flattened output graph after
the guard is irrelevant to the claims and is modelled as `Unit`. -/
def linearize_bubbles (paths : List (String × List (Nat × Bool))) : Except PanError Unit :=
  if (bubble_caller paths).any (fun pr => pr.2.any (fun c => c.isEmpty)) then
    .error .degenerateBubble
  else
    .ok ()

-- Sanity checks of the bubble model.
example :
    bubble_caller [("p", [(1, true), (2, true), (3, true)])]
      = [("p", [[(1, true), (2, true)], [(2, true), (3, true)]])] := by decide
example :
    linearize_bubbles
      [("p1", [(1, true), (2, true), (3, true)]), ("p2", [(2, true), (1, true), (3, true)])]
      = .error .degenerateBubble := by decide

/-- Each whole iteration of the fixed-point loop only ever *filters* the
endpoint list (per path, `[e for e in bubbles_endpoints if e not in
embed_nodes]`), so the produced anchor list is a sublist of the previous
one — anchors are removed, never added. -/
lemma bubble_iteration_sublist :
    ∀ (paths chains : List (List Nat)) (endpoints : List Nat),
      List.Sublist (bubble_iteration_paths paths chains endpoints).2 endpoints := by
  intro paths
  induction paths with
  | nil => intro chains endpoints; exact List.Sublist.refl _
  | cons ns rest ih =>
    intro chains endpoints
    simp only [bubble_iteration_paths]
    exact (ih _ _).trans (List.filter_sublist _)

/-- An iteration over at most one endpoint is the identity: no consecutive
pair exists, so no chain and no embedded node is produced and the filter
keeps everything. -/
lemma bubble_iteration_small :
    ∀ (paths : List (List Nat)) (endpoints : List Nat), endpoints.length ≤ 1 →
      bubble_iteration_paths paths [] endpoints = ([], endpoints) := by
  intro paths
  induction paths with
  | nil => intro endpoints _; rfl
  | cons ns rest ih =>
    intro endpoints h
    rcases endpoints with _ | ⟨e, _ | ⟨e2, tl⟩⟩
    · simp only [bubble_iteration_paths, List.map_nil, grouper, List.map_nil,
        List.append_nil, List.filter_nil]
      exact ih [] (by simp)
    · simp only [bubble_iteration_paths, List.map_cons, List.map_nil, grouper,
        List.append_nil]
      simpa using ih [e] h
    · exfalso; simp at h

/-- If the convergence counter already equals the endpoint count, the loop
body never runs. -/
lemma bubble_loop_converged (allSets : List (List Nat)) (fuel : Nat) (eps : List Nat)
    (conv : Nat) (h : eps.length = conv) :
    bubble_caller_loop allSets fuel eps conv = (eps, 0) := by
  cases fuel with
  | zero => rfl
  | succ f => simp [bubble_caller_loop, h]

/-- Bound on the number of iterations of the fixed-point `while` loop. -/
lemma bubble_loop_count_le (allSets : List (List Nat)) :
    ∀ (fuel : Nat) (eps : List Nat) (conv : Nat),
      (bubble_caller_loop allSets fuel eps conv).2 ≤
        if eps.length = conv then 0 else if eps.length ≤ 1 then 1 else eps.length := by
  intro fuel
  induction fuel with
  | zero =>
    intro eps conv
    simp only [bubble_caller_loop]
    split_ifs <;> omega
  | succ f ih =>
    intro eps conv
    by_cases h : eps.length = conv
    · rw [bubble_loop_converged allSets (f+1) eps conv h]
      simp [h]
    · simp only [bubble_caller_loop, if_neg h]
      have hsub := bubble_iteration_sublist allSets [] eps
      have hlen := hsub.length_le
      by_cases hsmall : eps.length ≤ 1
      · have hfix : (bubble_iteration_paths allSets [] eps).2 = eps :=
          congrArg Prod.snd (bubble_iteration_small allSets eps hsmall)
        rw [hfix, bubble_loop_converged allSets f eps eps.length rfl]
        simp only [if_neg h, if_pos hsmall]
        omega
      · have hbound := ih (bubble_iteration_paths allSets [] eps).2 eps.length
        split_ifs at hbound ⊢ <;> omega

/-- Once the loop exits through its convergence test, the returned endpoint
list is a genuine fixed point of the iteration: the lengths before and after
the last iteration agree and the iteration result is a sublist of its input,
hence they are equal. -/
lemma bubble_loop_fix (allSets : List (List Nat)) :
    ∀ (fuel : Nat) (prev eps : List Nat),
      eps = (bubble_iteration_paths allSets [] prev).2 →
      (bubble_caller_loop allSets fuel eps prev.length).2 < fuel →
      (bubble_iteration_paths allSets []
          (bubble_caller_loop allSets fuel eps prev.length).1).2
        = (bubble_caller_loop allSets fuel eps prev.length).1 := by
  intro fuel
  induction fuel with
  | zero =>
    intro prev eps _ hcount
    simp [bubble_caller_loop] at hcount
  | succ f ih =>
    intro prev eps heps hcount
    by_cases h : eps.length = prev.length
    · have hsub : List.Sublist eps prev := heps ▸ bubble_iteration_sublist allSets [] prev
      have heq : eps = prev := hsub.eq_of_length h
      rw [bubble_loop_converged allSets (f+1) eps prev.length h]
      rw [heq] at heps ⊢
      exact heps.symm
    · simp only [bubble_caller_loop, if_neg h] at hcount ⊢
      exact ih eps _ rfl (by omega)

/-- C7: in `bubble_caller`'s fixed-point loop, (a) every iteration produces an
anchor list that is a filtered sublist of the previous one — anchors are only
removed, never added, so the anchor count is monotonically non-increasing —
and (b) the loop terminates after at most as many iterations as there are
anchors initially: with fuel `initial count + 1` the instrumented loop
performs at most `initial count` iterations and (c) exits with a genuine
fixed point of the iteration (so the fuel never cuts the `while` loop
short). -/
theorem c7_fixed_point (allSets chains : List (List Nat)) (endpoints : List Nat) :
    List.Sublist (bubble_iteration_paths allSets chains endpoints).2 endpoints ∧
      (bubble_caller_loop allSets (endpoints.length + 1) endpoints 0).2 ≤ endpoints.length ∧
      (bubble_iteration_paths allSets []
          (bubble_caller_loop allSets (endpoints.length + 1) endpoints 0).1).2
        = (bubble_caller_loop allSets (endpoints.length + 1) endpoints 0).1 := by
  refine ⟨bubble_iteration_sublist allSets chains endpoints, ?_, ?_⟩
  · have hb := bubble_loop_count_le allSets (endpoints.length + 1) endpoints 0
    split_ifs at hb <;> omega
  · by_cases h0 : endpoints.length = 0
    · rw [bubble_loop_converged allSets (endpoints.length + 1) endpoints 0 h0]
      have : endpoints = [] := List.length_eq_zero.mp h0
      subst this
      exact congrArg Prod.snd (bubble_iteration_small allSets [] (by simp))
    · simp only [bubble_caller_loop, if_neg h0]
      apply bubble_loop_fix allSets endpoints.length endpoints _ rfl
      have hsub := bubble_iteration_sublist allSets [] endpoints
      have hlen := hsub.length_le
      have hb := bubble_loop_count_le allSets endpoints.length
        (bubble_iteration_paths allSets [] endpoints).2 endpoints.length
      by_cases h1 : endpoints.length = 1
      · have hfix : (bubble_iteration_paths allSets [] endpoints).2 = endpoints :=
          congrArg Prod.snd (bubble_iteration_small allSets endpoints (by omega))
        rw [hfix, bubble_loop_converged allSets endpoints.length endpoints endpoints.length rfl]
        omega
      · split_ifs at hb <;> omega

/-- Bool-valued strict increase of a `Nat` list (used to state, decidably,
that a path visits the converged anchors at strictly increasing positions). -/
def strictIncr : List Nat → Bool
  | [] => true
  | [_] => true
  | a :: b :: rest => decide (a < b) && strictIncr (b :: rest)

/-- Last element of `e :: rest` (total, no `Option`). -/
def lastOf : Nat → List Nat → Nat
  | e, [] => e
  | _, e2 :: rest => lastOf e2 rest

/-- Concatenation of a list of chains with the leading element of every chain
removed (auxiliary for `dedupConcat`). -/
def tailsJoin {α : Type*} : List (List α) → List α
  | [] => []
  | c :: cs => c.drop 1 ++ tailsJoin cs

/-- Concatenation of a list of chains keeping the first chain whole and
dropping the leading element of every later chain: the natural way to
concatenate `bubble_caller`'s anchor-inclusive chains without repeating the
anchor shared by two consecutive bubbles. -/
def dedupConcat {α : Type*} : List (List α) → List α
  | [] => []
  | c :: cs => c ++ tailsJoin cs

lemma getLast?_eq_lastOf : ∀ (rest : List Nat) (e : Nat),
    (e :: rest).getLast? = some (lastOf e rest) := by
  intro rest
  induction rest with
  | nil => intro e; rfl
  | cons e2 tl ih =>
    intro e
    rw [List.getLast?_cons_cons]
    exact ih e2

lemma strictIncr_le_lastOf : ∀ (rest : List Nat) (e : Nat),
    strictIncr (e :: rest) = true → e ≤ lastOf e rest := by
  intro rest
  induction rest with
  | nil => intro e _; exact le_refl e
  | cons e2 tl ih =>
    intro e h
    simp only [strictIncr, Bool.and_eq_true, decide_eq_true_eq] at h
    have h2 := ih e2 h.2
    simp only [lastOf]
    omega

/-- Key coverage computation: over the tail of a strictly increasing index
list, joining the anchor-inclusive slices of `pd` with their first element
dropped yields the contiguous region of `pd` from just after the first index
to just past the last one. -/
lemma tailsJoin_chains {α : Type*} :
    ∀ (rest : List Nat) (e : Nat) (pd : List α),
      strictIncr (e :: rest) = true → lastOf e rest < pd.length →
      tailsJoin ((grouper (e :: rest)).map (fun se => (pd.drop se.1).take (se.2 + 1 - se.1)))
        = (pd.drop (e + 1)).take (lastOf e rest + 1 - (e + 1)) := by
  intro rest
  induction rest with
  | nil =>
    intro e pd _ _
    simp [grouper, tailsJoin, lastOf]
  | cons e2 tl ih =>
    intro e pd hinc hlast
    have hee2 : e < e2 := by
      simp only [strictIncr, Bool.and_eq_true, decide_eq_true_eq] at hinc
      exact hinc.1
    have hinc2 : strictIncr (e2 :: tl) = true := by
      simp only [strictIncr, Bool.and_eq_true] at hinc
      exact hinc.2
    have hlast2 : lastOf e2 tl < pd.length := by simpa [lastOf] using hlast
    have he2L : e2 ≤ lastOf e2 tl := strictIncr_le_lastOf tl e2 hinc2
    simp only [grouper, List.map_cons, tailsJoin, lastOf]
    rw [ih e2 pd hinc2 hlast2]
    have h1 : ((pd.drop e).take (e2 + 1 - e)).drop 1
        = (pd.drop (e + 1)).take (e2 - e) := by
      rw [List.drop_take, List.drop_drop]
      congr 1
      omega
    rw [h1]
    have h2 : pd.drop (e2 + 1) = (pd.drop (e + 1)).drop (e2 - e) := by
      rw [List.drop_drop]
      congr 1
      omega
    rw [h2, ← List.take_add]
    congr 1
    omega

/-- Coverage of a strictly increasing full-span index list: the first
anchor-inclusive slice, followed by the later slices with their leading
(shared) anchor dropped, reconstructs `pd` exactly. -/
lemma dedupConcat_grouper_slices {α : Type*} (idxs : List Nat) (pd : List α)
    (hlen : 2 ≤ idxs.length) (hinc : strictIncr idxs = true)
    (hhead : idxs.head? = some 0) (hlast : idxs.getLast? = some (pd.length - 1))
    (hne : pd ≠ []) :
    dedupConcat ((grouper idxs).map (fun se => (pd.drop se.1).take (se.2 + 1 - se.1))) = pd := by
  rcases idxs with _ | ⟨i0, _ | ⟨i1, rest⟩⟩
  · simp at hlen
  · simp at hlen
  · have hi0 : i0 = 0 := by simpa using hhead
    subst hi0
    have hpd : 1 ≤ pd.length := List.length_pos.mpr hne
    have hL : lastOf i1 rest = pd.length - 1 := by
      have hg := getLast?_eq_lastOf (i1 :: rest) 0
      rw [hg] at hlast
      have : lastOf 0 (i1 :: rest) = lastOf i1 rest := rfl
      rw [this] at hlast
      exact Option.some.inj hlast
    have hinc1 : strictIncr (i1 :: rest) = true := by
      simp only [strictIncr, Bool.and_eq_true] at hinc
      exact hinc.2
    have hi1L : i1 ≤ lastOf i1 rest := strictIncr_le_lastOf rest i1 hinc1
    have hlt : lastOf i1 rest < pd.length := by omega
    simp only [grouper, List.map_cons, dedupConcat]
    rw [tailsJoin_chains rest i1 pd hinc1 hlt]
    rw [List.drop_zero]
    have e1 : i1 + 1 - 0 = i1 + 1 := by omega
    have e2 : lastOf i1 rest + 1 - (i1 + 1) = lastOf i1 rest - i1 := by omega
    rw [e1, e2, ← List.take_add]
    have e3 : i1 + 1 + (lastOf i1 rest - i1) = pd.length := by omega
    rw [e3]
    exact List.take_length pd

/-- C6 counterexample: for the single-path graph `p = 1 → 2 → 3` (all three
nodes are anchors), `bubble_caller` returns the two anchor-inclusive chains
`[1,2]` and `[2,3]`; concatenating them in order does *not* reconstruct the
path — the interior anchor `2` is duplicated, because consecutive bubbles
share their boundary anchor. -/
theorem c6_coverage_counterexample :
    bubble_caller [("p", [(1, true), (2, true), (3, true)])]
        = [("p", [[(1, true), (2, true)], [(2, true), (3, true)]])] ∧
      List.flatten [[(1, true), (2, true)], [(2, true), (3, true)]]
        ≠ [(1, true), (2, true), (3, true)] := by decide

/-- C6 amended: `bubble_caller`'s per-path chains are anchor-inclusive on both
ends, so consecutive chains overlap in exactly their shared boundary anchor.
For every path whose converged anchors (at least two) occur at strictly
increasing first-occurrence positions starting at the path's first node and
ending at its last, the chains cover the path completely and without gaps
once the duplicated boundary anchors are counted once: keeping the first
chain whole and dropping the leading anchor of every later chain
(`dedupConcat`) reconstructs the path's full ordered segment list exactly. -/
theorem c6_coverage_amended (paths : List (String × List (Nat × Bool)))
    (pname : String) (pd : List (Nat × Bool))
    (hmem : (pname, pd) ∈ paths)
    (hlen : 2 ≤ (anchor_indexes (converged_endpoints paths) pd).length)
    (hinc : strictIncr (anchor_indexes (converged_endpoints paths) pd) = true)
    (hhead : (anchor_indexes (converged_endpoints paths) pd).head? = some 0)
    (hlast : (anchor_indexes (converged_endpoints paths) pd).getLast?
        = some (pd.length - 1))
    (hne : pd ≠ []) :
    (pname, oriented_chains (converged_endpoints paths) pd) ∈ bubble_caller paths ∧
      dedupConcat (oriented_chains (converged_endpoints paths) pd) = pd := by
  constructor
  · unfold bubble_caller
    exact List.mem_map_of_mem _ hmem
  · exact dedupConcat_grouper_slices _ pd hlen hinc hhead hlast hne

theorem c6_coverage_witness :
    ((("p", [(1, true), (2, true), (3, true)]) ∈
        [("p", [(1, true), (2, true), (3, true)])]) ∧
      2 ≤ (anchor_indexes
          (converged_endpoints [("p", [(1, true), (2, true), (3, true)])])
          [(1, true), (2, true), (3, true)]).length ∧
      strictIncr (anchor_indexes
          (converged_endpoints [("p", [(1, true), (2, true), (3, true)])])
          [(1, true), (2, true), (3, true)]) = true ∧
      (anchor_indexes
          (converged_endpoints [("p", [(1, true), (2, true), (3, true)])])
          [(1, true), (2, true), (3, true)]).head? = some 0 ∧
      (anchor_indexes
          (converged_endpoints [("p", [(1, true), (2, true), (3, true)])])
          [(1, true), (2, true), (3, true)]).getLast?
        = some ([(1, true), (2, true), (3, true)].length - 1) ∧
      ([(1, true), (2, true), (3, true)] : List (Nat × Bool)) ≠ []) ∧
      ((("p", oriented_chains
          (converged_endpoints [("p", [(1, true), (2, true), (3, true)])])
          [(1, true), (2, true), (3, true)])
        ∈ bubble_caller [("p", [(1, true), (2, true), (3, true)])]) ∧
        dedupConcat (oriented_chains
          (converged_endpoints [("p", [(1, true), (2, true), (3, true)])])
          [(1, true), (2, true), (3, true)])
          = [(1, true), (2, true), (3, true)]) :=
  ⟨⟨by decide, by decide, by decide, by decide, by decide, by decide⟩,
    c6_coverage_amended [("p", [(1, true), (2, true), (3, true)])] "p"
      [(1, true), (2, true), (3, true)]
      (by decide) (by decide) (by decide) (by decide) (by decide) (by decide)⟩

/-- C8: whenever the bubble partitioning produces a degenerate (zero-sized)
chain — which is how a cyclic / out-of-order anchor configuration manifests
in the extracted result, since the converged anchors themselves are
deduplicated — `linearize_bubbles` fails with the fatal degenerate-bubble
`ValueError` before building any output, rather than skipping the chain. -/
theorem c8_degenerate_error (paths : List (String × List (Nat × Bool)))
    (h : ∃ pr ∈ bubble_caller paths, ∃ c ∈ pr.2, c = ([] : List (Nat × Bool))) :
    linearize_bubbles paths = Except.error PanError.degenerateBubble := by
  have hb : (bubble_caller paths).any (fun pr => pr.2.any (fun c => c.isEmpty)) = true := by
    rw [List.any_eq_true]
    obtain ⟨pr, hpr, c, hc, hceq⟩ := h
    refine ⟨pr, hpr, ?_⟩
    rw [List.any_eq_true]
    exact ⟨c, hc, by simp [hceq]⟩
  unfold linearize_bubbles
  rw [if_pos hb]

theorem c8_degenerate_witness :
    (∃ pr ∈ bubble_caller
        [("p1", [(1, true), (2, true), (3, true)]), ("p2", [(2, true), (1, true), (3, true)])],
        ∃ c ∈ pr.2, c = ([] : List (Nat × Bool))) ∧
      linearize_bubbles
        [("p1", [(1, true), (2, true), (3, true)]), ("p2", [(2, true), (1, true), (3, true)])]
        = Except.error PanError.degenerateBubble :=
  ⟨by decide, c8_degenerate_error _ (by decide)⟩

/-! ## `perform_edition` dispatch (`pancat/edit_distance.py`) -/

/-- A loaded GFA graph as the path-level edition functions consume it:
segment lengths by name, and named oriented paths (traversal order
significant).  Sequences, links and headers are never read by this code. -/
structure PanGraph where
  segments : List (String × Int)
  paths : List (String × List (String × Bool))

/-- Model of `graph.segments[node]['length']`.  An absent name would be a Python
`KeyError`; the model defaults to 0, a case no claim exercises. -/
def segLength (g : PanGraph) (n : String) : Int := (g.segments.lookup n).getD 0

/-- The segmentation (ordered segment-length list) a graph induces on one of
its paths: exactly the lengths the co-traversal loop reads while walking
`graph.paths[name]['path']`. -/
def segmentationOf (g : PanGraph) (pname : String) : List Int :=
  ((g.paths.lookup pname).getD []).map (fun nd => segLength g nd.1)

/-- Function `path_level_edition` of `edit_distance.py`: the co-traversal run for each
selected path (its inline loop body is the one modelled by `pathEditLoop`),
results keyed by path name; a `ValueError` in any path's loop propagates. -/
def path_level_edition (gA gB : PanGraph) (selected : List String) :
    Except PanError (List (String × (List Int × List Int))) :=
  selected.mapM (fun p =>
    Except.map (fun r => (p, r))
      (edit_single_path_path_level (segmentationOf gA p) (segmentationOf gB p)))

/-- Function `path_level_edition_multiprocessing` of `edit_distance.py`: dispatches
`edit_single_path_path_level` over the selected paths through
`futures_collector` and keys the collected results by path name in argument
order.  The executor contributes no semantics beyond wall-clock scheduling,
so the function is modelled by the same per-path map as the sequential one. -/
def path_level_edition_multiprocessing (gA gB : PanGraph) (selected : List String) :
    Except PanError (List (String × (List Int × List Int))) :=
  selected.mapM (fun p =>
    Except.map (fun r => (p, r))
      (edit_single_path_path_level (segmentationOf gA p) (segmentationOf gB p)))

/-- Model of `set(graph_A.paths.keys()).intersection(set(graph_B.paths.keys()))`, as a
list in graph A's path order. -/
def pathIntersect (gA gB : PanGraph) : List String :=
  (gA.paths.map Prod.fst).filter (fun n => (gB.paths.map Prod.fst).contains n)

/-- The `selection` argument of `perform_edition`
(`selection: list[str] | bool = True`). -/
inductive Selection where
  | boolSel : Bool → Selection
  | listSel : List String → Selection

/-- The path-level dispatch of `perform_edition` (its `graph_level=False`
branch, lines 45-65 of `edit_distance.py`).  With a list selection, the
selection is validated against the shared paths (`raise ValueError()`
otherwise — the spec's SelectionError) and `set(selection)` is passed on
(modelled as `dedup`).  With a non-list (boolean) selection, the sequential
branch passes the shared-path intersection — but the `cores > 1` branch
evaluates `path_level_edition_multiprocessing(graph_A, graph_B,
set(selection))` with `selection` still the boolean, and `set(True)` raises
`TypeError: 'bool' object is not iterable` before any edition is computed:
modelled as `typeErrorBoolNotIterable`. -/
def perform_edition (gA gB : PanGraph) (selection : Selection) (cores : Nat) :
    Except PanError (List (String × (List Int × List Int))) :=
  match selection with
  | .listSel l =>
    if l.all (fun x => (pathIntersect gA gB).contains x) then
      if cores > 1 then
        path_level_edition_multiprocessing gA gB l.dedup
      else
        path_level_edition gA gB l.dedup
    else
      .error .selectionError
  | .boolSel _ =>
    if cores > 1 then
      .error .typeErrorBoolNotIterable
    else
      path_level_edition gA gB (pathIntersect gA gB)

/-- C10: the claim is right and the code is wrong.  At the failing input —
two graphs sharing path `p` (segmentations [5,5] and [3,7]), the default
selection `True`, path-level mode — the sequential run (`cores = 1`) returns
`{p: merges [3], splits [5]}`, but the parallel run (`cores = 2`) dies with
`TypeError` because `perform_edition` evaluates `set(selection)` with
`selection = True` instead of passing the path intersection, so the worker
count does change the result, contradicting the spec's orchestration
contract. -/
theorem c10_parallel_default_bug :
    perform_edition
        (PanGraph.mk [("1", 5), ("2", 5)] [("p", [("1", true), ("2", true)])])
        (PanGraph.mk [("1", 3), ("2", 7)] [("p", [("1", true), ("2", true)])])
        (Selection.boolSel true) 2
      = Except.error PanError.typeErrorBoolNotIterable ∧
    perform_edition
        (PanGraph.mk [("1", 5), ("2", 5)] [("p", [("1", true), ("2", true)])])
        (PanGraph.mk [("1", 3), ("2", 7)] [("p", [("1", true), ("2", true)])])
        (Selection.boolSel true) 1
      = Except.ok [("p", ([3], [5]))] := by decide
